import Mathlib

set_option linter.unusedVariables false

/-! Verification of the go-logs logging library core: a shallow embedding of
the record formatting and dispatch pipeline of src/logger.go, the escape
encoder of src/color.go and the ansi stripper of src/unnamed/part_001,
together with proofs and refutations of the documented properties.
Go byte strings are modelled as lists of characters (all relevant text is
ASCII). -/

/-- Go string contents, modelled as a list of characters. -/
abbrev Str := List Char

/-! ## Ansi stripper (src/unnamed/part_001, lines 11 to 21)

The Go code is
  `reg := regexp.MustCompile("\x1b\\[[\\d;]+m"); reg.ReplaceAllString(text, "")`:
every leftmost non-overlapping match of the pattern ESC OPENBRACKET
(digit or semicolon)+ LETTERm is deleted, and scanning resumes immediately
after the deleted match (the already-emitted output is never rescanned). -/

/-- A character matched by the regexp character class of digits and
semicolons. -/
def isCode (c : Char) : Bool := c.isDigit || c == ';'

/-- Attempt the regexp match at the head of the input: ESC, an opening
bracket, a nonempty run of digit or semicolon characters, then the letter m.
Because the run characters and the letter m are disjoint, the regexp can
only match with the maximal such run, so taking the longest run is exact.
On success, returns the input remaining after the match. -/
def matchEsc : Str → Option Str
  | c :: c2 :: rest =>
    if c = '\x1b' ∧ c2 = '[' ∧ rest.takeWhile isCode ≠ [] then
      match rest.dropWhile isCode with
      | 'm' :: tail => some tail
      | _ => none
    else none
  | _ => none

/-- Fuel-driven scanner for the replace-all loop: at each position either
delete a leftmost match and continue after it, or emit one character and
continue. One unit of fuel per emitted or deleted position suffices. -/
def stripAnsiF : Nat → Str → Str
  | _, [] => []
  | 0, l => l
  | fuel + 1, c :: cs =>
    match matchEsc (c :: cs) with
    | some tail => stripAnsiF fuel tail
    | none => c :: stripAnsiF fuel cs

/-- stripAnsi removes all ansi escapes from a string
(src/unnamed/part_001, lines 11 to 14; stripAnsiByte, lines 17 to 21, is
the same computation on a byte slice). -/
def stripAnsi (l : Str) : Str := stripAnsiF l.length l

/-- Decidable scan: does some position of the input start a regexp match? -/
def hasEsc : Str → Bool
  | [] => false
  | c :: cs => (matchEsc (c :: cs)).isSome || hasEsc cs

/-- The input contains a substring matching the escape-sequence grammar
ESC OPENBRACKET (digit or semicolon)+ LETTERm. -/
def HasEscSeq (l : Str) : Prop :=
  ∃ a run b, l = a ++ '\x1b' :: '[' :: (run ++ 'm' :: b) ∧ run ≠ [] ∧ run.all isCode

lemma all_takeWhile (p : α → Bool) : ∀ l : List α, (l.takeWhile p).all p = true := by
  intro l
  induction l with
  | nil => rfl
  | cons a t ih =>
    by_cases h : p a
    · simp [List.takeWhile_cons_of_pos h, h, ih]
    · simp [List.takeWhile_cons_of_neg h]

lemma takeWhile_all_append {p : α → Bool} {run : List α} (m' : α) (b : List α)
    (hall : run.all p = true) (hm : p m' = false) :
    (run ++ m' :: b).takeWhile p = run ∧ (run ++ m' :: b).dropWhile p = m' :: b := by
  induction run with
  | nil =>
    constructor
    · rw [List.nil_append]
      exact List.takeWhile_cons_of_neg (by simp [hm])
    · rw [List.nil_append]
      exact List.dropWhile_cons_of_neg (by simp [hm])
  | cons a t ih =>
    simp only [List.all_cons, Bool.and_eq_true] at hall
    have h1 := ih hall.2
    constructor
    · simpa [List.takeWhile_cons_of_pos hall.1] using h1.1
    · simpa [List.dropWhile_cons_of_pos hall.1] using h1.2

/-- Characterization of a successful head match. -/
lemma matchEsc_eq_some {l tail : Str} (h : matchEsc l = some tail) :
    ∃ run, l = '\x1b' :: '[' :: (run ++ 'm' :: tail) ∧ run ≠ [] ∧ run.all isCode := by
  match l with
  | [] => simp [matchEsc] at h
  | [c] => simp [matchEsc] at h
  | c :: c2 :: rest =>
    rw [matchEsc] at h
    split at h
    · rename_i hcond
      obtain ⟨hc, hc2, hrun⟩ := hcond
      subst hc; subst hc2
      refine ⟨rest.takeWhile isCode, ?_, hrun, all_takeWhile _ _⟩
      split at h
      · rename_i heq
        cases h
        rw [← heq]
        simp [List.takeWhile_append_dropWhile]
      · exact absurd h (by simp)
    · exact absurd h (by simp)

/-- The head match succeeds on any grammar instance. -/
lemma matchEsc_of_decomp {run b : Str} (hne : run ≠ []) (hall : run.all isCode) :
    matchEsc ('\x1b' :: '[' :: (run ++ 'm' :: b)) = some b := by
  have hm : isCode 'm' = false := by decide
  obtain ⟨htake, hdrop⟩ := takeWhile_all_append 'm' b hall hm
  rw [matchEsc]
  rw [if_pos ⟨rfl, rfl, by rw [htake]; exact hne⟩]
  rw [hdrop]
  rfl

lemma matchEsc_length {l tail : Str} (h : matchEsc l = some tail) :
    tail.length + 4 ≤ l.length := by
  obtain ⟨run, hl, hne, -⟩ := matchEsc_eq_some h
  subst hl
  have : 1 ≤ run.length := List.length_pos.mpr hne
  simp only [List.length_cons, List.length_append]
  omega

lemma stripAnsiF_nil : ∀ fuel, stripAnsiF fuel [] = [] := by
  intro fuel
  cases fuel <;> rfl

/-- Fuel irrelevance: any fuel at least the input length gives the same
result. -/
lemma stripAnsiF_fuel : ∀ fuel₁ fuel₂ (l : Str), l.length ≤ fuel₁ → l.length ≤ fuel₂ →
    stripAnsiF fuel₁ l = stripAnsiF fuel₂ l := by
  intro fuel₁
  induction fuel₁ with
  | zero =>
    intro fuel₂ l h1 h2
    have hl : l = [] := List.length_eq_zero.mp (Nat.le_zero.mp h1)
    subst hl
    rw [stripAnsiF_nil, stripAnsiF_nil]
  | succ f ih =>
    intro fuel₂ l h1 h2
    cases l with
    | nil => rw [stripAnsiF_nil, stripAnsiF_nil]
    | cons c cs =>
      cases fuel₂ with
      | zero => exact absurd h2 (by simp)
      | succ g =>
        cases hm : matchEsc (c :: cs) with
        | some tail =>
          have hlen := matchEsc_length hm
          simp only [List.length_cons] at h1 h2 hlen
          simp only [stripAnsiF, hm]
          exact ih g tail (by omega) (by omega)
        | none =>
          simp only [List.length_cons] at h1 h2
          simp only [stripAnsiF, hm]
          rw [ih g cs (by omega) (by omega)]

lemma stripAnsi_nil : stripAnsi [] = [] := rfl

lemma stripAnsi_match {c : Char} {cs tail : Str} (h : matchEsc (c :: cs) = some tail) :
    stripAnsi (c :: cs) = stripAnsi tail := by
  have hlen := matchEsc_length h
  simp only [List.length_cons] at hlen
  rw [stripAnsi, List.length_cons]
  simp only [stripAnsiF, h]
  rw [stripAnsi]
  exact stripAnsiF_fuel _ _ _ (by omega) (le_refl _)

lemma stripAnsi_nomatch {c : Char} {cs : Str} (h : matchEsc (c :: cs) = none) :
    stripAnsi (c :: cs) = c :: stripAnsi cs := by
  rw [stripAnsi, List.length_cons]
  simp only [stripAnsiF, h]
  rw [stripAnsi]

/-- On input with no head match anywhere, the stripper is the identity. -/
lemma stripAnsi_of_hasEsc_false : ∀ {l : Str}, hasEsc l = false → stripAnsi l = l := by
  intro l
  induction l with
  | nil => intro _; rfl
  | cons c cs ih =>
    intro h
    rw [hasEsc, Bool.or_eq_false_iff] at h
    obtain ⟨h1, h2⟩ := h
    have hm : matchEsc (c :: cs) = none := by
      cases hmm : matchEsc (c :: cs) with
      | none => rfl
      | some t => rw [hmm] at h1; simp at h1
    rw [stripAnsi_nomatch hm, ih h2]

/-- A non-escape first character never starts a match. -/
lemma matchEsc_ne_esc {c : Char} {cs : Str} (h : c ≠ '\x1b') : matchEsc (c :: cs) = none := by
  cases cs with
  | nil => rfl
  | cons c2 rest =>
    rw [matchEsc, if_neg]
    rintro ⟨h1, -, -⟩
    exact h h1

/-- The boolean scan agrees with the grammar-substring predicate. -/
lemma hasEsc_iff : ∀ {l : Str}, hasEsc l = true ↔ HasEscSeq l := by
  intro l
  induction l with
  | nil =>
    constructor
    · intro h
      exact absurd h (by simp [hasEsc])
    · rintro ⟨a, run, b, hl, -, -⟩
      exact absurd hl (by simp)
  | cons c cs ih =>
    rw [hasEsc, Bool.or_eq_true]
    constructor
    · rintro (h | h)
      · rw [Option.isSome_iff_exists] at h
        obtain ⟨tail, htail⟩ := h
        obtain ⟨run, hl, hne, hall⟩ := matchEsc_eq_some htail
        exact ⟨[], run, tail, by simpa using hl, hne, hall⟩
      · obtain ⟨a, run, b, hl, hne, hall⟩ := ih.mp h
        exact ⟨c :: a, run, b, by simp [hl], hne, hall⟩
    · rintro ⟨a, run, b, hl, hne, hall⟩
      cases a with
      | nil =>
        left
        simp only [List.nil_append] at hl
        obtain ⟨h1, h2⟩ : c = '\x1b' ∧ cs = '[' :: (run ++ 'm' :: b) := by
          cases hl; exact ⟨rfl, rfl⟩
        subst h1; subst h2
        rw [matchEsc_of_decomp hne hall]
        rfl
      | cons a0 at' =>
        right
        refine ih.mpr ⟨at', run, b, ?_, hne, hall⟩
        simpa using congrArg List.tail hl

lemma not_hasEscSeq_of_hasEsc_false {l : Str} (h : hasEsc l = false) : ¬ HasEscSeq l := by
  intro hseq
  rw [← hasEsc_iff] at hseq
  rw [h] at hseq
  exact Bool.false_ne_true hseq

/-- The stripper is the identity on any input with no grammar substring. -/
lemma stripAnsi_of_not_hasEscSeq {l : Str} (h : ¬ HasEscSeq l) : stripAnsi l = l := by
  apply stripAnsi_of_hasEsc_false
  cases hb : hasEsc l with
  | false => rfl
  | true => exact absurd (hasEsc_iff.mp hb) h

/-- Prepending newline characters cannot create an escape sequence. -/
lemma hasEsc_replicate_newline (k : Nat) (t : Str) :
    hasEsc (List.replicate k '\n' ++ t) = hasEsc t := by
  induction k with
  | zero => rfl
  | succ n ih =>
    rw [List.replicate_succ, List.cons_append, hasEsc]
    rw [matchEsc_ne_esc (by decide)]
    simpa using ih

/-! ## Claim C7: stripper idempotence and no-op on escape-free text -/

/-- Claim C7 as stated is false: the one-pass replace loop is not idempotent.
On the input ESC ESC OPENBRACKET 1 m OPENBRACKET 2 m, the only match is the
middle ESC OPENBRACKET 1 m; deleting it splices the leading ESC onto the
trailing OPENBRACKET 2 m, forming a fresh escape sequence that a second pass
removes. -/
theorem claim_C7_counterexample :
    stripAnsi (stripAnsi ([ '\x1b', '\x1b', '[', '1', 'm', '[', '2', 'm' ]))
      ≠ stripAnsi ([ '\x1b', '\x1b', '[', '1', 'm', '[', '2', 'm' ]) := by
  decide

/-- Claim C7, amended: the stripper is the identity on every string with no
substring matching the escape-sequence grammar; consequently
strip (strip s) = strip s holds whenever strip s has no such substring
(idempotence fails in general, as shown by the counterexample). -/
theorem claim_C7_amended :
    (∀ s : Str, ¬ HasEscSeq s → stripAnsi s = s) ∧
    (∀ s : Str, ¬ HasEscSeq (stripAnsi s) → stripAnsi (stripAnsi s) = stripAnsi s) := by
  constructor
  · intro s h
    exact stripAnsi_of_not_hasEscSeq h
  · intro s h
    exact stripAnsi_of_not_hasEscSeq h

/-- Witness for claim C7: a concrete escape-free string on which the amended
theorem applies. -/
theorem claim_C7_witness :
    ¬ HasEscSeq ([ 'h', 'i' ]) ∧ stripAnsi ([ 'h', 'i' ]) = ([ 'h', 'i' ]) :=
  have h : ¬ HasEscSeq ([ 'h', 'i' ]) := not_hasEscSeq_of_hasEsc_false (by decide)
  ⟨h, claim_C7_amended.1 _ h⟩

/-! ## Escape encoder (src/color.go) -/

/-- eCode value of the OFF attribute (src/color.go line 18). -/
def OFF : Nat := 0

/-- eCode value of the BOLD attribute (src/color.go line 19). -/
def BOLD : Nat := 1

/-- An argument to AnsiEscape: Go passes a heterogeneous variadic list whose
elements are either eCode values or strings; the runtime type switch in the
source distinguishes exactly these two cases (the default branch only prints
a diagnostic and appends nothing). -/
inductive EscArg where
  | code (c : Nat)
  | str (s : Str)
deriving DecidableEq

/-- Decimal digits of a natural number, as emitted by the %d format verb. -/
def natChars (n : Nat) : Str := Nat.toDigits 10 n

/-- One fragment of AnsiEscape output: an eCode becomes ESC OPENBRACKET
digits LETTERm, a string passes through unchanged
(src/color.go lines 60 to 68). -/
def escFrag : EscArg → Str
  | .code n => '\x1b' :: '[' :: (natChars n ++ [ 'm' ])
  | .str s => s

/-- AnsiEscape (src/color.go lines 59 to 74): concatenates the fragments and
appends a reset escape unless the final argument is the OFF attribute.
(The Go code indexes c with len minus one and so panics on an empty argument
list; the empty case below is therefore never exercised by the source.) -/
def AnsiEscape (c : List EscArg) : Str :=
  let out := c.foldl (fun acc v => acc ++ escFrag v) []
  match c.getLast? with
  | some (.code 0) => out
  | _ => out ++ ([ '\x1b', '[', '0', 'm' ])

/-- Claim C8: stripping composed with colorizing recovers the literal text:
strip applied to the encoder output for BOLD, the string x, OFF yields
exactly x; the encoder appends no trailing reset after a final OFF
attribute. -/
theorem claim_C8 :
    AnsiEscape ([ .code BOLD, .str ([ 'x' ]), .code OFF ]) =
      ([ '\x1b', '[', '1', 'm', 'x', '\x1b', '[', '0', 'm' ]) ∧
    stripAnsi (AnsiEscape ([ .code BOLD, .str ([ 'x' ]), .code OFF ])) = ([ 'x' ]) := by
  constructor <;> decide

/-! ## Logger data model (src/logger.go) -/

/-- Logging level: type level is a Go int (src/logger.go line 46). -/
abbrev level := Int

def LEVEL_DEBUG : level := 0
def LEVEL_INFO : level := 1
def LEVEL_WARNING : level := 2
def LEVEL_ERROR : level := 3
def LEVEL_CRITICAL : level := 4
def LEVEL_ALL : level := 5

/-- Output flags, a bitmask combined with bitwise or
(src/logger.go lines 93 to 125). -/
def Ldate : Nat := 1
def LlongFileName : Nat := 2
def LshortFileName : Nat := 4
def LfunctionName : Nat := 8
def LlineNumber : Nat := 16
def Lcolor : Nat := 32
def LnoFileAnsi : Nat := 64
def LnoPrefix : Nat := 128
def Lid : Nat := 256
def LstdFlags : Nat := Ldate ||| Lcolor ||| LnoFileAnsi

/-- Errors surfaced by the embedded operations. shortWrite models
io.ErrShortWrite; the other constructors model arbitrary error values
produced by a sink or the template engine. -/
inductive GoErr where
  | shortWrite
  | ioErr (msg : Str)
  | templateErr (msg : Str)
deriving DecidableEq

/-- One output sink (io.Writer). isFile records whether the dynamic type of
the writer is a pointer to os.File, which is exactly what
reflect.TypeOf(w).String() compares against in logger.Write; isConsole
records whether the sink is one of the conventional interactive console
destinations os.Stdout, os.Stderr or os.Stdin (those three are themselves
os.File pointers, so isConsole implies isFile for real sinks, but the code
only ever reads isFile). write gives the sink's observable behaviour: bytes
accepted and error returned for a given input. -/
structure Sink where
  isFile : Bool
  isConsole : Bool
  write : Str → Nat × Option GoErr

/-- Result of the multi-sink writer, instrumented with the list of byte
strings actually handed to sinks, in registration order (one entry per sink
whose Write method was invoked). -/
structure WriteRes where
  n : Nat
  err : Option GoErr
  delivered : List Str
deriving DecidableEq

/-- The per-sink stripping policy of logger.Write (src/logger.go line 561):
the bytes are stripped when the sink's dynamic type is a pointer to os.File
and the LnoFileAnsi flag is set. -/
def stripFor (flags : Nat) (w : Sink) (p : Str) : Str :=
  if w.isFile = true ∧ flags &&& LnoFileAnsi ≠ 0 then stripAnsi p else p

/-- logger.Write (src/logger.go lines 559 to 576): iterate the registered
sinks in order; strip per the policy (note the Go code reassigns p, so a
stripped p is carried into later iterations); stop at the first sink error;
a sink accepting fewer bytes than given stops with io.ErrShortWrite; on
full success return the length of the (possibly stripped) buffer and no
error. -/
def Write (flags : Nat) (p : Str) : List Sink → WriteRes
  | [] => ⟨p.length, none, []⟩
  | w :: ws =>
    let q := stripFor flags w p
    let r := w.write q
    match r.2 with
    | some e => ⟨r.1, some e, [q]⟩
    | none =>
      if r.1 ≠ q.length then ⟨r.1, some GoErr.shortWrite, [q]⟩
      else
        let rest := Write flags q ws
        ⟨rest.n, rest.err, q :: rest.delivered⟩

/-- The buffer value carried by Write after a prefix of sinks has been
processed successfully. -/
def pAfter (flags : Nat) (p : Str) : List Sink → Str
  | [] => p
  | w :: ws => pAfter flags (stripFor flags w p) ws

/-- The byte strings delivered to a prefix of sinks when all of them accept
their input fully. -/
def deliveredPre (flags : Nat) (p : Str) : List Sink → List Str
  | [] => []
  | w :: ws => stripFor flags w p :: deliveredPre flags (stripFor flags w p) ws

/-- Decidable check that every sink in the list accepts its delivered bytes
fully and without error. -/
def cleanPre (flags : Nat) (p : Str) : List Sink → Bool
  | [] => true
  | w :: ws =>
    let q := stripFor flags w p
    (w.write q).2.isNone && ((w.write q).1 == q.length) && cleanPre flags q ws

/-- Claim C5: the multi-sink writer iterates sinks in registration order;
the first sink returning an error stops the iteration (later sinks receive
no write) and that error is returned; a sink accepting fewer bytes than
given, even without an explicit error, likewise stops the iteration and is
reported as io.ErrShortWrite. -/
theorem claim_C5 (flags : Nat) (p : Str) (pre : List Sink) (w : Sink) (post : List Sink)
    (hclean : cleanPre flags p pre = true) :
    (∀ e, (w.write (stripFor flags w (pAfter flags p pre))).2 = some e →
      Write flags p (pre ++ w :: post) =
        ⟨(w.write (stripFor flags w (pAfter flags p pre))).1, some e,
          deliveredPre flags p pre ++ [stripFor flags w (pAfter flags p pre)]⟩) ∧
    ((w.write (stripFor flags w (pAfter flags p pre))).2 = none →
      (w.write (stripFor flags w (pAfter flags p pre))).1
        ≠ (stripFor flags w (pAfter flags p pre)).length →
      Write flags p (pre ++ w :: post) =
        ⟨(w.write (stripFor flags w (pAfter flags p pre))).1, some GoErr.shortWrite,
          deliveredPre flags p pre ++ [stripFor flags w (pAfter flags p pre)]⟩) := by
  induction pre generalizing p with
  | nil =>
    simp only [pAfter, deliveredPre, List.nil_append]
    constructor
    · intro e he
      simp [Write, he]
    · intro he hn
      simp [Write, he, hn]
  | cons w0 pre' ih =>
    simp only [cleanPre, Bool.and_eq_true, Option.isNone_iff_eq_none, beq_iff_eq] at hclean
    obtain ⟨⟨h1, h2⟩, h3⟩ := hclean
    have hrec := ih (stripFor flags w0 p) h3
    simp only [pAfter, deliveredPre, List.cons_append]
    constructor
    · intro e he
      have hr := hrec.1 e he
      simp [Write, h1, h2, hr]
    · intro he hn
      have hr := hrec.2 he hn
      simp [Write, h1, h2, hr]

/-- A sink that accepts everything (a bytes.Buffer that never fails). -/
def okSink : Sink := ⟨false, false, fun s => (s.length, none)⟩

/-- A sink whose write always fails with an explicit error. -/
def errSink : Sink := ⟨false, false, fun _ => (0, some (GoErr.ioErr ([ 'e' ])))⟩

/-- Witness for claim C5: a clean sink followed by a failing sink followed by
another clean sink; the failing sink's error is returned and the trailing
sink receives no write. -/
theorem claim_C5_witness :
    cleanPre 0 ([ 'a', 'b' ]) [okSink] = true ∧
    (errSink.write (stripFor 0 errSink (pAfter 0 ([ 'a', 'b' ]) [okSink]))).2 =
      some (GoErr.ioErr ([ 'e' ])) ∧
    Write 0 ([ 'a', 'b' ]) ([okSink] ++ errSink :: [okSink]) =
      ⟨0, some (GoErr.ioErr ([ 'e' ])), [[ 'a', 'b' ], [ 'a', 'b' ]]⟩ := by
  refine ⟨by decide, by decide, ?_⟩
  have h := (claim_C5 0 ([ 'a', 'b' ]) [okSink] errSink [okSink] (by decide)).1
    (GoErr.ioErr ([ 'e' ])) (by decide)
  rw [h]
  decide

/-- A console destination: os.Stdout. Its dynamic type is a pointer to
os.File, so the reflect test in logger.Write matches it. -/
def consoleSink : Sink := ⟨true, true, fun s => (s.length, none)⟩

/-- A non-console, non-file sink: an in-memory bytes.Buffer. Its dynamic
type is not a pointer to os.File. -/
def bufferSink : Sink := ⟨false, false, fun s => (s.length, none)⟩

/-- Bold x followed by a reset: output of the escape encoder for BOLD, x,
an explicit reset. -/
def boldX : Str := [ '\x1b', '[', '1', 'm', 'x', '\x1b', '[', '0', 'm' ]

/-- Claim C3 evaluated on the code: with Lcolor and LnoFileAnsi both set,
logger.Write strips exactly when the sink's dynamic type is a pointer to
os.File. A console sink (os.Stdout is an os.File pointer) therefore has its
escapes STRIPPED, and a non-console in-memory buffer sink RETAINS them —
the reverse of the claimed per-sink policy on both counts. -/
theorem claim_C3_eval :
    (Write (Lcolor ||| LnoFileAnsi) boldX [bufferSink, consoleSink]).delivered =
      [boldX, [ 'x' ]] ∧
    bufferSink.isConsole = false ∧ HasEscSeq boldX ∧
    consoleSink.isConsole = true ∧ ¬ HasEscSeq ([ 'x' ]) := by
  refine ⟨by decide, rfl,
    ⟨[], [ '1' ], [ 'x', '\x1b', '[', '0', 'm' ], by decide, by decide, by decide⟩,
    rfl, not_hasEscSeq_of_hasEsc_false (by decide)⟩

/-! ## The logger object and Fprint (src/logger.go) -/

/-- Caller information as produced by runtime.Caller and runtime.FuncForPC:
the fully qualified name of the calling function, its source file, and the
line number. -/
structure CallerInfo where
  funcName : Str
  file : Str
  line : Int

/-- format is the set of values available to the output template
(the format struct used by Fprint, src/logger.go lines 473 to 482). -/
structure Format where
  Prefix : Str
  LogLabel : Str
  Date : Str
  FileName : Str
  FunctionName : Str
  LineNumber : Int
  Id : Str
  Text : Str

/-- A compiled template, modelled by its render function: text/template
execution of a fixed parsed template on a format record produces a string.
(The Go code also assigns the execution error to err, but that value is
overwritten by the subsequent Write call, so it is not observable.) -/
abbrev Tmpl := Format → Str

/-- The logger state (src/logger.go lines 131 to 142). The mutex and the
scratch buffer are not modelled: the buffer is reset at the start of every
call and the claims concern single calls. -/
structure GoLogger where
  dateFormat : Str
  flags : Nat
  level : level
  lastId : Nat
  ids : List (Str × Nat)
  template : Tmpl
  prefixStr : Str
  streams : List Sink

/-- The level gate of Fprint (src/logger.go lines 382 to 385): the call is
dropped when the record level is not LEVEL_ALL, the logger level is not
LEVEL_ALL, and the record level is below the logger level. -/
def levelDisabled (logLevel loggerLevel : level) : Bool :=
  (decide (logLevel ≠ LEVEL_ALL) && decide (loggerLevel ≠ LEVEL_ALL))
    && decide (logLevel < loggerLevel)

/-- The filtering predicate of the specification: a call is enabled exactly
when the gate does not drop it. -/
def enabled (recordLevel loggerLevel : level) : Bool :=
  ! levelDisabled recordLevel loggerLevel

/-- The 256-color foreground escape produced by the external rgbterm
library: rgbterm.String(s, r, g, b) wraps s between an ESC OPENBRACKET
38;5;code m escape and an ESC OPENBRACKET 0;00 m reset; the color codes
below are the ones recorded in the repository's tests. -/
def fgColor (code : Nat) (s : Str) : Str :=
  ('\x1b' :: '[' :: '3' :: '8' :: ';' :: '5' :: ';' :: (natChars code ++ [ 'm' ]))
    ++ s ++ [ '\x1b', '[', '0', ';', '0', '0', 'm' ]

/-- The pre-colorized level labels (src/logger.go lines 36 to 44 and the
Label method, lines 52 to 54); the Print functions use no label. -/
def labelOf (l : level) : Str :=
  if l = LEVEL_DEBUG then fgColor 231 ([ '[', 'D', 'E', 'B', 'U', 'G', ']' ])
  else if l = LEVEL_INFO then fgColor 41 ([ '[', 'I', 'N', 'F', 'O', ']' ])
  else if l = LEVEL_WARNING then fgColor 228 ([ '[', 'W', 'A', 'R', 'N', 'I', 'N', 'G', ']' ])
  else if l = LEVEL_ERROR then fgColor 200 ([ '[', 'E', 'R', 'R', 'O', 'R', ']' ])
  else if l = LEVEL_CRITICAL then fgColor 196 ([ '[', 'C', 'R', 'I', 'T', 'I', 'C', 'A', 'L', ']' ])
  else []

/-- The id display string: fmt.Sprintf of the id number through the %02.f
verb (zero decimals, zero-padded to width two), in brackets
(src/logger.go line 418). -/
def idFmt (n : Nat) : Str :=
  '[' :: (if n < 10 then '0' :: natChars n else natChars n) ++ [ ']' ]

/-- The short-file-name loop (src/logger.go lines 420 to 429): scan indices
from the end down to index one (index zero is never examined) for a slash;
on the first hit keep everything after it. -/
def shortNameAux (file : Str) : Nat → Str
  | 0 => file
  | j + 1 => if file.getD (j + 1) ' ' = '/' then file.drop (j + 2) else shortNameAux file j

def shortName (file : Str) : Str :=
  match file.length with
  | 0 => file
  | n + 1 => shortNameAux file n

/-- The function-name loop (src/logger.go lines 430 to 439): scan indices
from the end down to index zero for a dot; on the first hit keep everything
after it. -/
def funcTailAux (s : Str) : Nat → Str
  | 0 => if s.getD 0 ' ' = '.' then s.drop 1 else s
  | j + 1 => if s.getD (j + 1) ' ' = '.' then s.drop (j + 2) else funcTailAux s j

def funcTail (s : Str) : Str :=
  match s.length with
  | 0 => s
  | n + 1 => funcTailAux s n

/-- Result of the caller-information block of Fprint
(src/logger.go lines 387 to 441), instrumented with a flag recording
whether the block ran (it performs the runtime.Caller stack walk). -/
structure GatherRes where
  file : Str
  fName : Str
  line : Int
  id : Str
  ids : List (Str × Nat)
  lastId : Nat
  resolved : Bool

/-- The caller-information block of Fprint (src/logger.go lines 396 to 441):
entered only when one of LlongFileName, LshortFileName, LfunctionName, Lid
is set. rc is the runtime.Caller oracle: for a given call depth it yields
the caller information and the ok flag; on not-ok the file falls back to the
literal three question marks and the line to zero. Under Lid the function
name is looked up in the id table, a fresh name being appended with the
next counter value. -/
def gatherCaller (flags : Nat) (ids : List (Str × Nat)) (lastId : Nat)
    (rc : Nat → CallerInfo × Bool) (calldepth : Nat) : GatherRes :=
  if flags &&& (LlongFileName ||| LshortFileName ||| LfunctionName ||| Lid) ≠ 0 then
    let r := rc calldepth
    let ci := r.1
    let ok := r.2
    let file := if ok then ci.file else [ '?', '?', '?' ]
    let line : Int := if ok then ci.line else 0
    let idT :=
      if flags &&& Lid ≠ 0 then
        match ids.lookup ci.funcName with
        | some idNum => (idFmt idNum, ids, lastId)
        | none => (idFmt lastId, (ci.funcName, lastId) :: ids, lastId + 1)
      else ([], ids, lastId)
    let file2 := if flags &&& LshortFileName ≠ 0 then shortName file else file
    let fName := if flags &&& LfunctionName ≠ 0 then funcTail ci.funcName else []
    ⟨file2, fName, line, idT.1, idT.2.1, idT.2.2, true⟩
  else ⟨[], [], 0, [], ids, lastId, false⟩

/-- Result of one Fprint call, instrumented with the updated logger state,
whether the caller stack walk ran, the assembled format record, the final
text, and the byte strings delivered to sinks. -/
structure FprintRes where
  n : Nat
  err : Option GoErr
  logr : GoLogger
  callerResolved : Bool
  record : Option Format
  finalText : Option Str
  writes : List Str

/-- The leading-newline count: strings.TrimLeft(text, newline) removes the
leading newlines and trimedCount is the length difference
(src/logger.go lines 446 to 447). -/
def trimCount (text : Str) : Nat :=
  text.length - (text.dropWhile (fun c => c == '\n')).length

/-- Assembly of the format record (src/logger.go lines 454 to 482): date
only under Ldate, prefix suppressed by LnoPrefix, file name cleared unless
a file-name flag is set, line number cleared unless LlineNumber is set. -/
def recordOf (l : GoLogger) (logLevel : level) (g : GatherRes) (buf : Str)
    (nowDate : Str) : Format :=
  ⟨if l.flags &&& LnoPrefix = 0 then l.prefixStr else [],
   labelOf logLevel,
   if l.flags &&& Ldate ≠ 0 then nowDate else [],
   if l.flags &&& (LlongFileName ||| LshortFileName) = 0 then [] else g.file,
   g.fName,
   if l.flags &&& LlineNumber = 0 then 0 else g.line,
   g.id,
   buf⟩

/-- The four-way final-text selection (src/logger.go lines 489 to 501):
with Lcolor unset the rendering is stripped; with a positive trimmed count
that many newlines are prepended. -/
def finalTextOf (flags : Nat) (trimedCount : Nat) (out : Str) : Str :=
  if trimedCount > 0 ∧ flags &&& Lcolor = 0 then
    List.replicate trimedCount '\n' ++ stripAnsi out
  else if trimedCount > 0 ∧ flags &&& Lcolor ≠ 0 then
    List.replicate trimedCount '\n' ++ out
  else if flags &&& Lcolor = 0 then stripAnsi out
  else out

/-- The enabled branch of Fprint (src/logger.go lines 387 to 509): run the
caller block if its flags demand it, peel leading newlines, assemble and
render the record, select the final text, and dispatch to logger.Write or
to the explicitly supplied override sink. -/
def FprintBody (l : GoLogger) (logLevel : level) (calldepth : Nat) (text : Str)
    (stream : Option Sink) (rc : Nat → CallerInfo × Bool) (nowDate : Str) : FprintRes :=
  let g := gatherCaller l.flags l.ids l.lastId rc calldepth
  let trimText := text.dropWhile (fun c => c == '\n')
  let buf := if trimCount text > 0 then trimText else text
  let f : Format := recordOf l logLevel g buf nowDate
  let out := l.template f
  let finalText := finalTextOf l.flags (trimCount text) out
  let l2 := { l with ids := g.ids, lastId := g.lastId }
  match stream with
  | none =>
    let w := Write l2.flags finalText l2.streams
    ⟨w.n, w.err, l2, g.resolved, some f, some finalText, w.delivered⟩
  | some s =>
    let r := s.write finalText
    ⟨r.1, r.2, l2, g.resolved, some f, some finalText, [finalText]⟩

/-- Fprint (src/logger.go lines 379 to 510). The level gate is checked
first; a dropped call returns zero bytes and no error with nothing else
done (no caller walk, no record, no render, no write). -/
def Fprint (l : GoLogger) (logLevel : level) (calldepth : Nat) (text : Str)
    (stream : Option Sink) (rc : Nat → CallerInfo × Bool) (nowDate : Str) : FprintRes :=
  if levelDisabled logLevel l.level then
    ⟨0, none, l, false, none, none, []⟩
  else
    FprintBody l logLevel calldepth text stream rc nowDate

/-- logger.SetTemplate (src/logger.go lines 517 to 524). parse models
template.New("default").Funcs(funcMap).Parse: compilation of a template
source to a render function or a syntax error. On error the error is
returned and the logger is untouched; on success the active template is
replaced. -/
def SetTemplate (parse : Str → Except GoErr Tmpl) (l : GoLogger) (temp : Str) :
    Option GoErr × GoLogger :=
  match parse temp with
  | .error e => (some e, l)
  | .ok t => (none, { l with template := t })

/-- Modelled from the spec: the default template of New compiles logFmt,
whose source file for this revision is not under src (the template schema
is section 6 of the specification); the claims under verification do not
depend on its shape, only on its type, so any fixed render function is
faithful here. -/
def defaultTemplate : Tmpl := fun f => f.Text

/-- The default colored prefix (src/logger.go line 90). -/
def defaultPrefixColor : Str := fgColor 48 ([ ':', ':' ])

/-- New (src/logger.go lines 149 to 162): fresh logger with the standard
flags, an empty id table and a zero id counter. -/
def New (lv : level) (streams : List Sink) : GoLogger :=
  ⟨"Mon-20060102-15:04:05".toList, LstdFlags, lv, 0, [], defaultTemplate,
    defaultPrefixColor, streams⟩

lemma finalTextOf_color0 {flags : Nat} (tc : Nat) (out : Str)
    (h : flags &&& Lcolor = 0) :
    finalTextOf flags tc out = List.replicate tc '\n' ++ stripAnsi out := by
  rw [finalTextOf]
  by_cases htc : tc > 0
  · rw [if_pos ⟨htc, h⟩]
  · rw [if_neg (fun hh => htc hh.1), if_neg (fun hh => htc hh.1), if_pos h]
    have : tc = 0 := by omega
    rw [this]
    rfl

lemma finalTextOf_color {flags : Nat} (tc : Nat) (out : Str)
    (h : flags &&& Lcolor ≠ 0) :
    finalTextOf flags tc out = List.replicate tc '\n' ++ out := by
  rw [finalTextOf]
  by_cases htc : tc > 0
  · rw [if_neg (fun hh => h hh.2), if_pos ⟨htc, h⟩]
  · rw [if_neg (fun hh => htc hh.1), if_neg (fun hh => htc hh.1), if_neg h]
    have : tc = 0 := by omega
    rw [this]
    rfl

/-- The updated logger state after one Fprint call. -/
lemma Fprint_logr (l : GoLogger) (lv : level) (cd : Nat) (text : Str)
    (stream : Option Sink) (rc : Nat → CallerInfo × Bool) (nd : Str) :
    (Fprint l lv cd text stream rc nd).logr =
      if levelDisabled lv l.level then l
      else { l with ids := (gatherCaller l.flags l.ids l.lastId rc cd).ids,
                    lastId := (gatherCaller l.flags l.ids l.lastId rc cd).lastId } := by
  rw [Fprint]
  split
  · rfl
  · rw [FprintBody.eq_def]
    cases stream <;> rfl

/-! ## Claim C1: the level gate -/

/-- Claim C1: a logging call is enabled exactly when the record level is
LEVEL_ALL, or the logger level is LEVEL_ALL, or the record level is at
least the logger level; and a disabled Fprint call returns zero bytes
written and no error immediately, with no caller resolution, no record
assembly, no rendering, no sink write, and the logger state untouched. -/
theorem claim_C1 :
    (∀ L T : level, enabled L T = true ↔ (L = LEVEL_ALL ∨ T = LEVEL_ALL ∨ T ≤ L)) ∧
    (∀ (l : GoLogger) (lv : level) (cd : Nat) (text : Str) (stream : Option Sink)
      (rc : Nat → CallerInfo × Bool) (nd : Str),
      levelDisabled lv l.level = true →
      Fprint l lv cd text stream rc nd = ⟨0, none, l, false, none, none, []⟩) := by
  constructor
  · intro L T
    have h1 : enabled L T = true ↔ ¬ (levelDisabled L T = true) := by
      rw [enabled]
      cases levelDisabled L T <;> simp
    rw [h1]
    have h2 : levelDisabled L T = true ↔ (L ≠ LEVEL_ALL ∧ T ≠ LEVEL_ALL ∧ L < T) := by
      simp [levelDisabled, and_assoc]
    rw [h2]
    constructor
    · intro h
      by_cases hL : L = LEVEL_ALL
      · exact Or.inl hL
      by_cases hT : T = LEVEL_ALL
      · exact Or.inr (Or.inl hT)
      refine Or.inr (Or.inr ?_)
      by_contra hlt
      push_neg at hlt
      exact h ⟨hL, hT, hlt⟩
    · rintro (h | h | h) ⟨h1', h2', h3'⟩
      · exact h1' h
      · exact h2' h
      · exact absurd h3' (not_lt.mpr h)
  · intro l lv cd text stream rc nd h
    rw [Fprint, if_pos h]

/-- Witness for claim C1: a logger thresholded at LEVEL_WARNING drops a
LEVEL_INFO record without touching anything. -/
theorem claim_C1_witness :
    levelDisabled LEVEL_INFO (New LEVEL_WARNING [okSink]).level = true ∧
    Fprint (New LEVEL_WARNING [okSink]) LEVEL_INFO 2 ([ 'h', 'i' ]) none
        (fun _ => (⟨[], [], 0⟩, false)) [] =
      ⟨0, none, New LEVEL_WARNING [okSink], false, none, none, []⟩ :=
  ⟨by decide, claim_C1.2 _ _ _ _ _ _ _ (by decide)⟩

/-! ## Claim C10: the line-number flag alone -/

/-- Claim C10: when LlineNumber is set but none of LlongFileName,
LshortFileName, LfunctionName, Lid is set, the caller stack walk never runs
and the rendered record carries line number zero on every enabled call. -/
theorem claim_C10 (l : GoLogger) (lv : level) (cd : Nat) (text : Str)
    (stream : Option Sink) (rc : Nat → CallerInfo × Bool) (nd : Str)
    (hline : l.flags &&& LlineNumber ≠ 0)
    (hnone : l.flags &&& (LlongFileName ||| LshortFileName ||| LfunctionName ||| Lid) = 0)
    (hen : levelDisabled lv l.level = false) :
    (Fprint l lv cd text stream rc nd).callerResolved = false ∧
    ∃ f, (Fprint l lv cd text stream rc nd).record = some f ∧ f.LineNumber = 0 := by
  have hg : gatherCaller l.flags l.ids l.lastId rc cd =
      ⟨[], [], 0, [], l.ids, l.lastId, false⟩ := by
    rw [gatherCaller, if_neg (by simp [hnone])]
  rw [Fprint, if_neg (by simp [hen])]
  rw [FprintBody.eq_def, hg]
  cases stream with
  | none =>
    refine ⟨rfl, ?_⟩
    refine ⟨_, rfl, ?_⟩
    rw [recordOf]
    by_cases h0 : l.flags &&& LlineNumber = 0
    · simp [h0]
    · simp [h0]
  | some s =>
    refine ⟨rfl, ?_⟩
    refine ⟨_, rfl, ?_⟩
    rw [recordOf]
    by_cases h0 : l.flags &&& LlineNumber = 0
    · simp [h0]
    · simp [h0]

/-- A logger carrying only the LlineNumber flag. -/
def lineLogger : GoLogger :=
  ⟨[], LlineNumber, LEVEL_ALL, 0, [], (fun f => f.Text), [], [bufferSink]⟩

/-- A caller oracle reporting a real location (nonzero line). -/
def rcMain : Nat → CallerInfo × Bool :=
  fun _ => (⟨[ 'm', 'a', 'i', 'n', '.', 'f' ], [ 'a', '.', 'g', 'o' ], 7⟩, true)

/-- Witness for claim C10 on a concrete logger with only LlineNumber set. -/
theorem claim_C10_witness :
    lineLogger.flags &&& LlineNumber ≠ 0 ∧
    lineLogger.flags &&& (LlongFileName ||| LshortFileName ||| LfunctionName ||| Lid) = 0 ∧
    (Fprint lineLogger LEVEL_ALL 2 ([ 'h' ]) none rcMain []).callerResolved = false ∧
    ∃ f, (Fprint lineLogger LEVEL_ALL 2 ([ 'h' ]) none rcMain []).record = some f ∧
      f.LineNumber = 0 :=
  ⟨by decide, by decide,
    claim_C10 lineLogger LEVEL_ALL 2 ([ 'h' ]) none rcMain []
      (by decide) (by decide) (by decide)⟩

/-! ## Claim C2: leading-newline preservation -/

lemma dropWhile_replicate_newline (k : Nat) (rest : Str) (h : rest.head? ≠ some '\n') :
    (List.replicate k '\n' ++ rest).dropWhile (fun c => c == '\n') = rest := by
  induction k with
  | zero =>
    rw [List.replicate_zero, List.nil_append]
    cases rest with
    | nil => rfl
    | cons c cs =>
      simp only [List.head?] at h
      apply List.dropWhile_cons_of_neg
      simp only [beq_iff_eq]
      intro hc
      exact h (by rw [hc])
  | succ n ih =>
    rw [List.replicate_succ, List.cons_append]
    rw [List.dropWhile_cons_of_pos (by simp)]
    exact ih

/-- Claim C2: a message starting with k at least 1 newlines has exactly
those k newlines removed before template substitution (the record's Text is
the remainder) and exactly k newlines prepended to the fully rendered
output, on both the color-stripped and the colored path. -/
theorem claim_C2 (l : GoLogger) (lv : level) (cd : Nat) (k : Nat) (rest : Str)
    (stream : Option Sink) (rc : Nat → CallerInfo × Bool) (nd : Str)
    (hk : 1 ≤ k) (hrest : rest.head? ≠ some '\n')
    (hen : levelDisabled lv l.level = false) :
    ∃ f, (Fprint l lv cd (List.replicate k '\n' ++ rest) stream rc nd).record = some f ∧
      f.Text = rest ∧
      (l.flags &&& Lcolor = 0 →
        (Fprint l lv cd (List.replicate k '\n' ++ rest) stream rc nd).finalText =
          some (List.replicate k '\n' ++ stripAnsi (l.template f))) ∧
      (l.flags &&& Lcolor ≠ 0 →
        (Fprint l lv cd (List.replicate k '\n' ++ rest) stream rc nd).finalText =
          some (List.replicate k '\n' ++ l.template f)) := by
  have hdrop := dropWhile_replicate_newline k rest hrest
  have htc : trimCount (List.replicate k '\n' ++ rest) = k := by
    rw [trimCount, hdrop]
    simp
  rw [Fprint, if_neg (by simp [hen]), FprintBody.eq_def]
  rw [hdrop, htc]
  cases stream with
  | none =>
    refine ⟨_, rfl, ?_, ?_, ?_⟩
    · show (if k > 0 then rest else List.replicate k '\n' ++ rest) = rest
      rw [if_pos (by omega : k > 0)]
    · intro hc
      exact congrArg some (finalTextOf_color0 _ _ hc)
    · intro hc
      exact congrArg some (finalTextOf_color _ _ hc)
  | some s =>
    refine ⟨_, rfl, ?_, ?_, ?_⟩
    · show (if k > 0 then rest else List.replicate k '\n' ++ rest) = rest
      rw [if_pos (by omega : k > 0)]
    · intro hc
      exact congrArg some (finalTextOf_color0 _ _ hc)
    · intro hc
      exact congrArg some (finalTextOf_color _ _ hc)

/-- A plain logger: no flags, level ALL, identity-on-Text template, one
buffer sink. -/
def plainLogger : GoLogger :=
  ⟨[], 0, LEVEL_ALL, 0, [], (fun f => f.Text), [], [bufferSink]⟩

/-- Witness for claim C2 at two leading newlines. -/
theorem claim_C2_witness :
    1 ≤ 2 ∧ ([ 'H' ] : Str).head? ≠ some '\n' ∧
    levelDisabled LEVEL_ALL plainLogger.level = false ∧
    (∃ f, (Fprint plainLogger LEVEL_ALL 2 (List.replicate 2 '\n' ++ [ 'H' ]) none
        rcMain []).record = some f ∧
      f.Text = [ 'H' ] ∧
      (plainLogger.flags &&& Lcolor = 0 →
        (Fprint plainLogger LEVEL_ALL 2 (List.replicate 2 '\n' ++ [ 'H' ]) none
            rcMain []).finalText =
          some (List.replicate 2 '\n' ++ stripAnsi (plainLogger.template f))) ∧
      (plainLogger.flags &&& Lcolor ≠ 0 →
        (Fprint plainLogger LEVEL_ALL 2 (List.replicate 2 '\n' ++ [ 'H' ]) none
            rcMain []).finalText =
          some (List.replicate 2 '\n' ++ plainLogger.template f))) :=
  ⟨by decide, by decide, by decide,
    claim_C2 plainLogger LEVEL_ALL 2 2 ([ 'H' ]) none rcMain []
      (by decide) (by decide) (by decide)⟩

/-! ## Claim C6: color suppression with Lcolor unset -/

/-- If the buffer is a fixed point of the stripper, every sink receives
exactly the buffer. -/
lemma Write_delivered_fixed (flags : Nat) (p : Str) (hp : stripAnsi p = p) :
    ∀ ws : List Sink, ∀ d ∈ (Write flags p ws).delivered, d = p := by
  intro ws
  induction ws with
  | nil =>
    intro d hd
    simp [Write] at hd
  | cons w ws ih =>
    intro d hd
    have hq : stripFor flags w p = p := by
      rw [stripFor]
      split
      · exact hp
      · rfl
    simp only [Write, hq] at hd
    cases he : (w.write p).2 with
    | some e =>
      rw [he] at hd
      simp at hd
      exact hd
    | none =>
      rw [he] at hd
      by_cases hn : (w.write p).1 ≠ p.length
      · rw [if_pos hn] at hd
        simp at hd
        exact hd
      · rw [if_neg hn] at hd
        simp only [List.mem_cons] at hd
        rcases hd with hd | hd
        · exact hd
        · exact ih d hd

lemma not_hasEscSeq_replicate_append {t : Str} (k : Nat) (h : ¬ HasEscSeq t) :
    ¬ HasEscSeq (List.replicate k '\n' ++ t) := by
  intro hx
  apply h
  rw [← hasEsc_iff] at hx ⊢
  rwa [hasEsc_replicate_newline] at hx

/-- Core of the amended claim C6, on the multi-sink path: with Lcolor unset
and an escape-free stripped rendering, every delivered byte string is the
stripped rendering with the newlines re-prepended, and is escape-free. -/
lemma C6core (flags : Nat) (streams : List Sink) (tc : Nat) (out : Str)
    (hcol : flags &&& Lcolor = 0) (hclean : ¬ HasEscSeq (stripAnsi out)) :
    ∀ d ∈ (Write flags (finalTextOf flags tc out) streams).delivered,
      d = List.replicate tc '\n' ++ stripAnsi out ∧ ¬ HasEscSeq d := by
  intro d hd
  have hft := finalTextOf_color0 tc out hcol
  have hne := not_hasEscSeq_replicate_append tc hclean
  have hfix : stripAnsi (finalTextOf flags tc out) = finalTextOf flags tc out := by
    rw [hft]
    exact stripAnsi_of_not_hasEscSeq hne
  have hd2 := Write_delivered_fixed flags _ hfix streams d hd
  rw [hft] at hd2
  exact ⟨hd2, hd2 ▸ hne⟩

/-- Core of the amended claim C6, on the override-sink path. -/
lemma C6coreS (flags : Nat) (tc : Nat) (out : Str)
    (hcol : flags &&& Lcolor = 0) (hclean : ¬ HasEscSeq (stripAnsi out)) :
    ∀ d ∈ ([finalTextOf flags tc out] : List Str),
      d = List.replicate tc '\n' ++ stripAnsi out ∧ ¬ HasEscSeq d := by
  intro d hd
  simp only [List.mem_singleton] at hd
  subst hd
  rw [finalTextOf_color0 _ _ hcol]
  exact ⟨rfl, not_hasEscSeq_replicate_append tc hclean⟩

/-- Claim C6, amended: with Lcolor unset the rendered record is passed
through the ANSI stripper before any sink write, and every sink receives
exactly the stripped rendering with the peeled newlines re-prepended; the
delivered bytes are escape-free whenever the stripped rendering is
escape-free — but not unconditionally (see the counterexample: leftover
fragments of overlapping escapes can recombine into a new escape). -/
theorem claim_C6_amended (l : GoLogger) (lv : level) (cd : Nat) (text : Str)
    (stream : Option Sink) (rc : Nat → CallerInfo × Bool) (nd : Str)
    (hcol : l.flags &&& Lcolor = 0)
    (hen : levelDisabled lv l.level = false)
    (hclean : ∀ f : Format, ¬ HasEscSeq (stripAnsi (l.template f))) :
    ∃ f, (Fprint l lv cd text stream rc nd).record = some f ∧
      (Fprint l lv cd text stream rc nd).finalText =
        some (List.replicate (trimCount text) '\n' ++ stripAnsi (l.template f)) ∧
      ∀ d ∈ (Fprint l lv cd text stream rc nd).writes,
        d = List.replicate (trimCount text) '\n' ++ stripAnsi (l.template f) ∧
          ¬ HasEscSeq d := by
  rw [Fprint, if_neg (by simp [hen]), FprintBody.eq_def]
  cases stream with
  | none =>
    refine ⟨_, rfl, congrArg some (finalTextOf_color0 _ _ hcol), ?_⟩
    intro d hd
    exact C6core l.flags l.streams (trimCount text) _ hcol (hclean _) d hd
  | some s =>
    refine ⟨_, rfl, congrArg some (finalTextOf_color0 _ _ hcol), ?_⟩
    intro d hd
    exact C6coreS l.flags (trimCount text) _ hcol (hclean _) d hd

/-- A template whose static text splices into a fresh escape after one
stripper pass (a template with no actions renders constant text, so this is
a legitimate compiled template). -/
def badTmpl : Tmpl := fun _ => [ '\x1b', '\x1b', '[', '1', 'm', '[', '2', 'm' ]

/-- A logger with Lcolor unset whose template renders the pathological
text. -/
def badLogger : GoLogger := ⟨[], 0, LEVEL_ALL, 0, [], badTmpl, [], [bufferSink]⟩

/-- Claim C6 as stated is false: with Lcolor unset, the bytes delivered to
the sink can still contain an ANSI escape sequence when the template
output's escapes overlap, because one stripper pass leaves a recombined
escape behind. -/
theorem claim_C6_counterexample :
    badLogger.flags &&& Lcolor = 0 ∧
    ∃ d, d ∈ (Fprint badLogger LEVEL_ALL 2 ([ 'h', 'i' ]) none rcMain []).writes ∧
      HasEscSeq d :=
  ⟨by decide,
    ⟨[ '\x1b', '[', '2', 'm' ], by decide,
      ⟨[], [ '2' ], [], by decide, by decide, by decide⟩⟩⟩

/-- A logger with Lcolor unset and a constant, escape-free template. -/
def constLogger : GoLogger :=
  ⟨[], 0, LEVEL_ALL, 0, [], (fun _ => [ 'o', 'k' ]), [], [bufferSink]⟩

/-- Witness for claim C6 on a concrete logger whose stripped rendering is
escape-free. -/
theorem claim_C6_witness :
    constLogger.flags &&& Lcolor = 0 ∧
    levelDisabled LEVEL_ALL constLogger.level = false ∧
    (∃ f, (Fprint constLogger LEVEL_ALL 2 ([ 'h' ]) none rcMain []).record = some f ∧
      (Fprint constLogger LEVEL_ALL 2 ([ 'h' ]) none rcMain []).finalText =
        some (List.replicate (trimCount ([ 'h' ])) '\n' ++
          stripAnsi (constLogger.template f)) ∧
      ∀ d ∈ (Fprint constLogger LEVEL_ALL 2 ([ 'h' ]) none rcMain []).writes,
        d = List.replicate (trimCount ([ 'h' ])) '\n' ++
            stripAnsi (constLogger.template f) ∧
          ¬ HasEscSeq d) :=
  ⟨by decide, by decide,
    claim_C6_amended constLogger LEVEL_ALL 2 ([ 'h' ]) none rcMain []
      (by decide) (by decide)
      (fun _ => not_hasEscSeq_of_hasEsc_false
        (show hasEsc (stripAnsi ([ 'o', 'k' ])) = false by decide))⟩

/-! ## Claim C9: the id table only grows -/

/-- A set Lid bit implies the caller-block mask is nonzero (Lid is one of
its disjuncts). -/
lemma mask_of_lid {flags : Nat} (h : flags &&& Lid ≠ 0) :
    flags &&& (LlongFileName ||| LshortFileName ||| LfunctionName ||| Lid) ≠ 0 := by
  intro h0
  apply h
  apply Nat.eq_of_testBit_eq
  intro i
  have hi := congrArg (fun x => Nat.testBit x i) h0
  simp only [Nat.testBit_land, Nat.testBit_lor, Nat.zero_testBit] at hi ⊢
  cases hf : Nat.testBit flags i
  · simp
  · rw [hf] at hi
    simp only [Bool.true_and, Bool.or_eq_false_iff] at hi
    simp [hi.2]

/-- An existing id-table entry survives the caller block unchanged. -/
lemma gatherCaller_ids_lookup (flags : Nat) (ids : List (Str × Nat)) (lastId : Nat)
    (rc : Nat → CallerInfo × Bool) (cd : Nat) (k : Str) (v : Nat)
    (h : ids.lookup k = some v) :
    (gatherCaller flags ids lastId rc cd).ids.lookup k = some v := by
  rw [gatherCaller]
  split
  · dsimp only
    split
    · cases hl : ids.lookup (rc cd).1.funcName with
      | some idNum =>
        simp only [hl]
        exact h
      | none =>
        simp only [hl]
        show List.lookup k ((_, lastId) :: ids) = some v
        rw [List.lookup]
        cases hk : k == (rc cd).1.funcName with
        | true =>
          have hkk : k = (rc cd).1.funcName := eq_of_beq hk
          rw [hkk] at h
          rw [h] at hl
          cases hl
        | false => exact h
    · exact h
  · exact h

/-- The id table never shrinks across the caller block. -/
lemma gatherCaller_ids_length (flags : Nat) (ids : List (Str × Nat)) (lastId : Nat)
    (rc : Nat → CallerInfo × Bool) (cd : Nat) :
    ids.length ≤ (gatherCaller flags ids lastId rc cd).ids.length := by
  rw [gatherCaller]
  split
  · dsimp only
    split
    · cases hl : ids.lookup (rc cd).1.funcName with
      | some idNum => simp [hl]
      | none => simp [hl]
    · exact le_refl _
  · exact le_refl _

/-- With Lid set and the calling function already tabled, the caller block
leaves the table and the counter untouched. -/
lemma gatherCaller_seen (flags : Nat) (ids : List (Str × Nat)) (lastId : Nat)
    (rc : Nat → CallerInfo × Bool) (cd : Nat) (v : Nat)
    (hmask : flags &&& (LlongFileName ||| LshortFileName ||| LfunctionName ||| Lid) ≠ 0)
    (hlid : flags &&& Lid ≠ 0)
    (hv : ids.lookup (rc cd).1.funcName = some v) :
    (gatherCaller flags ids lastId rc cd).ids = ids ∧
    (gatherCaller flags ids lastId rc cd).lastId = lastId := by
  rw [gatherCaller, if_pos hmask]
  dsimp only
  rw [if_pos hlid, hv]
  exact ⟨rfl, rfl⟩

/-- With Lid set and the calling function unseen, the caller block prepends
the fresh entry with the current counter value and increments the
counter. -/
lemma gatherCaller_fresh (flags : Nat) (ids : List (Str × Nat)) (lastId : Nat)
    (rc : Nat → CallerInfo × Bool) (cd : Nat)
    (hmask : flags &&& (LlongFileName ||| LshortFileName ||| LfunctionName ||| Lid) ≠ 0)
    (hlid : flags &&& Lid ≠ 0)
    (hn : ids.lookup (rc cd).1.funcName = none) :
    (gatherCaller flags ids lastId rc cd).ids = ((rc cd).1.funcName, lastId) :: ids ∧
    (gatherCaller flags ids lastId rc cd).lastId = lastId + 1 := by
  rw [gatherCaller, if_pos hmask]
  dsimp only
  rw [if_pos hlid, hn]
  exact ⟨rfl, rfl⟩

/-- Claim C9: the id table only grows. A fresh logger starts with an empty
table and counter zero; no Fprint call removes or changes an existing
entry, and the table never shrinks; with id-tagging enabled, an unseen
calling function is assigned the current counter value (ids are handed out
in first-sight order) and the counter is incremented, while an
already-seen function leaves the table and the counter untouched. -/
theorem claim_C9 :
    (∀ (lv : level) (ss : List Sink), (New lv ss).lastId = 0 ∧ (New lv ss).ids = []) ∧
    (∀ (l : GoLogger) (lv : level) (cd : Nat) (text : Str) (stream : Option Sink)
        (rc : Nat → CallerInfo × Bool) (nd : Str) (k : Str) (v : Nat),
      l.ids.lookup k = some v →
      (Fprint l lv cd text stream rc nd).logr.ids.lookup k = some v) ∧
    (∀ (l : GoLogger) (lv : level) (cd : Nat) (text : Str) (stream : Option Sink)
        (rc : Nat → CallerInfo × Bool) (nd : Str),
      l.ids.length ≤ (Fprint l lv cd text stream rc nd).logr.ids.length) ∧
    (∀ (l : GoLogger) (lv : level) (cd : Nat) (text : Str) (stream : Option Sink)
        (rc : Nat → CallerInfo × Bool) (nd : Str),
      levelDisabled lv l.level = false → l.flags &&& Lid ≠ 0 →
      (∀ v, l.ids.lookup (rc cd).1.funcName = some v →
        (Fprint l lv cd text stream rc nd).logr.ids = l.ids ∧
        (Fprint l lv cd text stream rc nd).logr.lastId = l.lastId) ∧
      (l.ids.lookup (rc cd).1.funcName = none →
        (Fprint l lv cd text stream rc nd).logr.ids.lookup (rc cd).1.funcName =
          some l.lastId ∧
        (Fprint l lv cd text stream rc nd).logr.lastId = l.lastId + 1)) := by
  refine ⟨fun lv ss => ⟨rfl, rfl⟩, ?_, ?_, ?_⟩
  · intro l lv cd text stream rc nd k v h
    rw [Fprint_logr]
    split
    · exact h
    · exact gatherCaller_ids_lookup l.flags l.ids l.lastId rc cd k v h
  · intro l lv cd text stream rc nd
    rw [Fprint_logr]
    split
    · exact le_refl _
    · exact gatherCaller_ids_length l.flags l.ids l.lastId rc cd
  · intro l lv cd text stream rc nd hen hlid
    have hmask := mask_of_lid hlid
    constructor
    · intro v hv
      have hg := gatherCaller_seen l.flags l.ids l.lastId rc cd v hmask hlid hv
      rw [Fprint_logr, if_neg (by simp [hen])]
      exact ⟨hg.1, hg.2⟩
    · intro hn
      have hg := gatherCaller_fresh l.flags l.ids l.lastId rc cd hmask hlid hn
      rw [Fprint_logr, if_neg (by simp [hen])]
      constructor
      · show (gatherCaller l.flags l.ids l.lastId rc cd).ids.lookup _ = some l.lastId
        rw [hg.1]
        simp [List.lookup]
      · exact hg.2

/-- A logger with only the Lid flag and an empty id table. -/
def idLogger : GoLogger :=
  ⟨[], Lid, LEVEL_ALL, 0, [], (fun f => f.Text), [], [bufferSink]⟩

/-- Witness for claim C9: a first sighting of a calling function on a fresh
logger stores id zero for it and advances the counter to one. -/
theorem claim_C9_witness :
    levelDisabled LEVEL_ALL idLogger.level = false ∧
    idLogger.flags &&& Lid ≠ 0 ∧
    idLogger.ids.lookup (rcMain 2).1.funcName = none ∧
    (Fprint idLogger LEVEL_ALL 2 ([ 'h' ]) none rcMain []).logr.ids.lookup
        (rcMain 2).1.funcName = some idLogger.lastId ∧
    (Fprint idLogger LEVEL_ALL 2 ([ 'h' ]) none rcMain []).logr.lastId =
      idLogger.lastId + 1 :=
  have h := (claim_C9.2.2.2 idLogger LEVEL_ALL 2 ([ 'h' ]) none rcMain []
    (by decide) (by decide)).2 (by decide)
  ⟨by decide, by decide, by decide, h.1, h.2⟩

/-! ## Claim C4: SetTemplate error handling -/

/-- Claim C4: when template compilation fails, SetTemplate returns the
compile error and leaves the logger untouched, so a subsequent logging call
behaves exactly as before (it renders with the prior, known-good template);
when compilation succeeds, the active template is replaced and no error is
returned. -/
theorem claim_C4 (parse : Str → Except GoErr Tmpl) (l : GoLogger) (s : Str) :
    (∀ e, parse s = .error e →
      SetTemplate parse l s = (some e, l) ∧
      ∀ (lv : level) (cd : Nat) (text : Str) (stream : Option Sink)
          (rc : Nat → CallerInfo × Bool) (nd : Str),
        Fprint (SetTemplate parse l s).2 lv cd text stream rc nd =
          Fprint l lv cd text stream rc nd) ∧
    (∀ t, parse s = .ok t →
      SetTemplate parse l s = (none, { l with template := t })) := by
  constructor
  · intro e he
    have h1 : SetTemplate parse l s = (some e, l) := by
      rw [SetTemplate, he]
    exact ⟨h1, fun lv cd text stream rc nd => by rw [h1]⟩
  · intro t ht
    rw [SetTemplate, ht]

/-- A concrete compiler model: the single-character source b is malformed,
everything else compiles to the identity-on-Text render function. -/
def parse0 : Str → Except GoErr Tmpl
  | [ 'b' ] => .error (GoErr.templateErr ([ 'b' ]))
  | _ => .ok (fun f => f.Text)

/-- Witness for claim C4: installing the malformed source returns its
compile error and leaves the logger unchanged. -/
theorem claim_C4_witness :
    parse0 ([ 'b' ]) = Except.error (GoErr.templateErr ([ 'b' ])) ∧
    SetTemplate parse0 (New LEVEL_DEBUG [okSink]) ([ 'b' ]) =
      (some (GoErr.templateErr ([ 'b' ])), New LEVEL_DEBUG [okSink]) :=
  have h : parse0 ([ 'b' ]) = Except.error (GoErr.templateErr ([ 'b' ])) := rfl
  ⟨h, ((claim_C4 parse0 (New LEVEL_DEBUG [okSink]) ([ 'b' ])).1 _ h).1⟩
